import Mathlib

/-!
Shallow embedding of `src/net/server/user-mgr.c` (ccnet user manager):
the credential hasher, the local EmailUser store operations, the LDAP
directory adapter, and the Account Service façade that routes between
them, together with theorems settling the specification claims.
-/

set_option maxRecDepth 4000

/-! ### Credential hasher: `hash_password` (SHA-1 of the password, hex-encoded)

The C code computes `SHA1(passwd)` (OpenSSL `SHA1_Init/Update/Final`) and
formats the 20-byte digest as 40 hex characters via `rawdata_to_hex`.
SHA-1 is modelled below from the published standard (the C calls an
external library); machine words are `Nat` reduced mod 2^32.
-/

/-- Truncate to a 32-bit word, as the C `unsigned int` arithmetic does. -/
def w32 (n : Nat) : Nat := n % 4294967296

/-- 32-bit left rotation. -/
def rotl (n x : Nat) : Nat := w32 (x <<< n) ||| (x >>> (32 - n))

/-- UTF-8 encoding of one code point (the bytes `strlen`/`SHA1_Update` see). -/
def utf8Bytes (c : Nat) : List Nat :=
  if c < 128 then [c]
  else if c < 2048 then [192 ||| (c >>> 6), 128 ||| (c &&& 63)]
  else if c < 65536 then
    [224 ||| (c >>> 12), 128 ||| ((c >>> 6) &&& 63), 128 ||| (c &&& 63)]
  else
    [240 ||| (c >>> 18), 128 ||| ((c >>> 12) &&& 63),
     128 ||| ((c >>> 6) &&& 63), 128 ||| (c &&& 63)]

/-- The byte sequence of a string, as the C `const char *passwd` holds it. -/
def strBytes (s : String) : List Nat :=
  s.data.foldr (fun c acc => utf8Bytes c.toNat ++ acc) []

/-- Big-endian byte serialization of a value into `n` bytes. -/
def beBytes : Nat → Nat → List Nat
  | 0, _ => []
  | n + 1, v => beBytes n (v / 256) ++ [v % 256]

/-- Group bytes into big-endian 32-bit words (SHA-1 block schedule input). -/
def bytesToWords : List Nat → List Nat
  | b0 :: b1 :: b2 :: b3 :: rest =>
      (((b0 * 256 + b1) * 256 + b2) * 256 + b3) :: bytesToWords rest
  | _ => []

/-- SHA-1 padding: append 0x80, zeros to 56 mod 64, then the 64-bit bit length. -/
def sha1pad (ms : List Nat) : List Nat :=
  let L := ms.length
  let k := (119 - L % 64) % 64
  ms ++ 128 :: List.replicate k 0 ++ beBytes 8 (8 * L)

/-- Split a padded message into 64-byte chunks. -/
def chunks64 (ms : List Nat) : List (List Nat) :=
  (List.range ((ms.length + 63) / 64)).map (fun i => (ms.drop (64 * i)).take 64)

/-- One step of the SHA-1 message-schedule extension: the word list is kept
most-recent-first, so positions 2, 7, 13, 15 are W[t-3], W[t-8], W[t-14], W[t-16]. -/
def sha1ExtendStep (acc : List Nat) : List Nat :=
  rotl 1 (((acc.getD 2 0 ^^^ acc.getD 7 0) ^^^ acc.getD 13 0) ^^^ acc.getD 15 0) :: acc

/-- One SHA-1 round: `tw` is the round index paired with the schedule word. -/
def sha1Round (st : Nat × Nat × Nat × Nat × Nat) (tw : Nat × Nat) :
    Nat × Nat × Nat × Nat × Nat :=
  let (t, w) := tw
  let (a, b, c, d, e) := st
  let f :=
    if t < 20 then (b &&& c) ||| ((4294967295 ^^^ b) &&& d)
    else if t < 40 then (b ^^^ c) ^^^ d
    else if t < 60 then ((b &&& c) ||| (b &&& d)) ||| (c &&& d)
    else (b ^^^ c) ^^^ d
  let k :=
    if t < 20 then 1518500249
    else if t < 40 then 1859775393
    else if t < 60 then 2400959708
    else 3395469782
  let temp := w32 (rotl 5 a + f + e + k + w)
  (temp, a, rotl 30 b, c, d)

/-- Compress one 64-byte chunk into the running hash state. -/
def sha1Compress (h : Nat × Nat × Nat × Nat × Nat) (chunk : List Nat) :
    Nat × Nat × Nat × Nat × Nat :=
  let ws16 := bytesToWords chunk
  let wsAll := ((List.range 64).foldl (fun acc _ => sha1ExtendStep acc) ws16.reverse).reverse
  let (h0, h1, h2, h3, h4) := h
  let (a, b, c, d, e) := wsAll.enum.foldl sha1Round (h0, h1, h2, h3, h4)
  (w32 (h0 + a), w32 (h1 + b), w32 (h2 + c), w32 (h3 + d), w32 (h4 + e))

/-- Serialize the five final state words into the 20-byte digest. -/
def digestBytes : Nat × Nat × Nat × Nat × Nat → List Nat
  | (h0, h1, h2, h3, h4) =>
      beBytes 4 h0 ++ beBytes 4 h1 ++ beBytes 4 h2 ++ beBytes 4 h3 ++ beBytes 4 h4

/-- SHA-1 of a byte sequence (the `SHA1_Init/Update/Final` calls in `hash_password`). -/
def sha1 (ms : List Nat) : List Nat :=
  digestBytes ((chunks64 (sha1pad ms)).foldl sha1Compress
    (1732584193, 4023233417, 2562383102, 271733878, 3285377520))

/-- Lower-case hex digit for a nibble. -/
def hexDigit (n : Nat) : Char :=
  if n < 10 then Char.ofNat (48 + n) else Char.ofNat (87 + n)

/-- Modelled from the spec: `rawdata_to_hex` (defined in the repository's
`utils.c`, outside the shown source) formats the 20-byte digest as
"40 hex characters", two lower-case hex digits per byte. -/
def rawdata_to_hex (bytes : List Nat) : String :=
  String.mk (bytes.foldr (fun b acc => hexDigit (b / 16) :: hexDigit (b % 16) :: acc) [])

/-- `hash_password` from user-mgr.c: SHA-1 the password bytes, hex-encode. -/
def hash_password (passwd : String) : String :=
  rawdata_to_hex (sha1 (strBytes passwd))

/-! ### Data model

`EmailUserRow` is a row of the `EmailUser` table; `EmailUser` is the
`CcnetEmailUser` object the queries construct (no `passwd` field is
exposed: the SELECTs read `id, email, is_staff, is_active, ctime`).
-/

/-- A row of the `EmailUser` table (columns of the CREATE TABLE DDL). -/
structure EmailUserRow where
  id : Nat
  email : String
  passwd : String
  is_staff : Bool
  is_active : Bool
  ctime : Int
deriving DecidableEq, Repr

/-- The `CcnetEmailUser` object built by `get_emailuser_cb` / `ldap_list_users`. -/
structure EmailUser where
  id : Nat
  email : String
  is_staff : Bool
  is_active : Bool
  ctime : Int
deriving DecidableEq, Repr

/-- One LDAP entry matched by the search filter `(login_attr=uid)`:
its distinguished name and the first value of the login attribute
(the C reads `vals[0]` of `ldap_first_attribute`). -/
structure LdapEntry where
  dn : String
  val : String
deriving DecidableEq, Repr

/-- The external LDAP server as seen through `ldap_init_and_bind` /
`ldap_search_s`: whether the service bind succeeds, whether searches
succeed, the entries matching filter `(login_attr=uid)` for each `uid`,
and which (dn, password) pairs the second bind accepts. -/
structure LdapServer where
  serviceBindOk : Bool
  searchOk : Bool
  entries : String → List LdapEntry
  dnBindOk : String → String → Bool

/-- `CcnetUserManager` state: the LDAP toggle (`use_ldap`, set when an
LDAP HOST is configured), the `EmailUser` table rows in storage order,
the auto-increment counter, and the external directory. -/
structure CcnetUserManager where
  use_ldap : Bool
  rows : List EmailUserRow
  nextId : Nat
  srv : LdapServer

/-! ### Directory adapter (`ldap_verify_user_password`, `ldap_list_users`, `ldap_count_users`) -/

/-- `ldap_verify_user_password`: bind with the service identity, search
for `(login_attr=uid)`, take the first entry's DN, and re-bind with the
supplied password; -1 on any failure (bind failure, search failure, no
entry, or rejected second bind), 0 on success. -/
def ldap_verify_user_password (srv : LdapServer) (uid password : String) : Int :=
  if !srv.serviceBindOk then -1
  else if !srv.searchOk then -1
  else
    match srv.entries uid with
    | [] => -1
    | e :: _ => if srv.dnBindOk e.dn password then 0 else -1

/-- `ldap_list_users`: bind, search `(login_attr=uid)`, and build one
`CcnetEmailUser` per entry with id 0, is_staff false, is_active true,
ctime 0. The C accumulates with `g_list_prepend` and never reverses, so
the returned list is the entries in reverse order; a bind or search
failure returns NULL, which as a GList is the same value as an empty
result list. -/
def ldap_list_users (srv : LdapServer) (uid : String) : List EmailUser :=
  if !srv.serviceBindOk then []
  else if !srv.searchOk then []
  else
    ((srv.entries uid).map (fun e =>
      { id := 0, email := e.val, is_staff := false, is_active := true, ctime := 0 })).reverse

/-- `ldap_count_users`: bind, search `(login_attr=uid)`, return
`ldap_count_entries`; -1 when the bind or the search fails. -/
def ldap_count_users (srv : LdapServer) (uid : String) : Int :=
  if !srv.serviceBindOk then -1
  else if !srv.searchOk then -1
  else ((srv.entries uid).length : Int)

/-! ### Local store queries -/

/-- The row produced by `SELECT ... WHERE email='e' AND passwd='h'` read
through `get_emailuser_cb` (the callback returns FALSE, so only the
first matching row is taken). -/
def find_emailuser_by_email_passwd (rows : List EmailUserRow) (email hashed : String) :
    Option EmailUserRow :=
  rows.find? (fun r => r.email == email && r.passwd == hashed)

/-- The row produced by `SELECT ... WHERE email='e'`, first match only. -/
def find_emailuser_by_email (rows : List EmailUserRow) (email : String) :
    Option EmailUserRow :=
  rows.find? (fun r => r.email == email)

/-- `get_emailuser_cb`: build a `CcnetEmailUser` from the selected columns. -/
def row_to_emailuser (r : EmailUserRow) : EmailUser :=
  { id := r.id, email := r.email, is_staff := r.is_staff,
    is_active := r.is_active, ctime := r.ctime }

/-! ### Account Service operations -/

/-- `ccnet_user_manager_add_emailuser`: no-op success under LDAP;
otherwise hash the password and INSERT a row with the current time.
The INSERT fails (-1) when the email already exists, by the UNIQUE
index on `email`. Returns the new manager state and the return code. -/
def ccnet_user_manager_add_emailuser (m : CcnetUserManager) (now : Int)
    (email passwd : String) (is_staff is_active : Bool) :
    CcnetUserManager × Int :=
  if m.use_ldap then (m, 0)
  else
    let hashed := hash_password passwd
    if m.rows.any (fun r => r.email == email) then (m, -1)
    else
      ({ m with
          rows := m.rows ++
            [{ id := m.nextId, email := email, passwd := hashed,
               is_staff := is_staff, is_active := is_active, ctime := now }],
          nextId := m.nextId + 1 }, 0)

/-- `ccnet_user_manager_remove_emailuser`: no-op success under LDAP;
otherwise `DELETE FROM EmailUser WHERE email='e'` (deleting a missing
email succeeds as a no-op). -/
def ccnet_user_manager_remove_emailuser (m : CcnetUserManager) (email : String) :
    CcnetUserManager × Int :=
  if m.use_ldap then (m, 0)
  else ({ m with rows := m.rows.filter (fun r => r.email != email) }, 0)

/-- `ccnet_user_manager_validate_emailuser`: hash the password; under
LDAP, look up a row matching both email and digest — if one exists and
is staff, succeed immediately, otherwise (non-staff match or no match)
return `ldap_verify_user_password`'s verdict. Without LDAP, succeed
iff a row matches email and digest. -/
def ccnet_user_manager_validate_emailuser (m : CcnetUserManager)
    (email passwd : String) : Int :=
  let hashed := hash_password passwd
  if m.use_ldap then
    match find_emailuser_by_email_passwd m.rows email hashed with
    | some r =>
        if r.is_staff then 0
        else ldap_verify_user_password m.srv email passwd
    | none => ldap_verify_user_password m.srv email passwd
  else
    if m.rows.any (fun r => r.email == email && r.passwd == hashed) then 0 else -1

/-- `ccnet_user_manager_get_emailuser`: under LDAP, look the email up
locally first — a staff row is returned as-is, otherwise the result is
the head of `ldap_list_users` (NULL, i.e. none, when that list is
empty). Without LDAP, return the first row matching the email. -/
def ccnet_user_manager_get_emailuser (m : CcnetUserManager) (email : String) :
    Option EmailUser :=
  if m.use_ldap then
    match find_emailuser_by_email m.rows email with
    | some r =>
        if r.is_staff then some (row_to_emailuser r)
        else (ldap_list_users m.srv email).head?
    | none => (ldap_list_users m.srv email).head?
  else (find_emailuser_by_email m.rows email).map row_to_emailuser

/-- `ccnet_user_manager_get_emailuser_by_id`: NULL unconditionally under
LDAP; otherwise the first row with the given id. -/
def ccnet_user_manager_get_emailuser_by_id (m : CcnetUserManager) (id : Nat) :
    Option EmailUser :=
  if m.use_ldap then none
  else (m.rows.find? (fun r => r.id == id)).map row_to_emailuser

/-- `ccnet_user_manager_get_emailusers`: under LDAP, `ldap_list_users`
with pattern "*". Otherwise `SELECT * FROM EmailUser` when both start
and limit are -1, else `SELECT * ... LIMIT start, limit` (offset
`start`, at most `limit` rows, in storage order; the C builds the rows
with prepend and reverses at the end, so storage order is kept). -/
def ccnet_user_manager_get_emailusers (m : CcnetUserManager) (start limit : Int) :
    List EmailUser :=
  if m.use_ldap then ldap_list_users m.srv "*"
  else if start == -1 && limit == -1 then m.rows.map row_to_emailuser
  else ((m.rows.drop start.toNat).take limit.toNat).map row_to_emailuser

/-- `ccnet_user_manager_count_emailusers`: under LDAP, `ldap_count_users`
with pattern "*"; otherwise `SELECT COUNT(*) FROM EmailUser`. -/
def ccnet_user_manager_count_emailusers (m : CcnetUserManager) : Int :=
  if m.use_ldap then ldap_count_users m.srv "*"
  else (m.rows.length : Int)

/-- `ccnet_user_manager_update_emailuser`: when LDAP is off or the
`is_staff` argument is set, hash the password and
`UPDATE EmailUser SET passwd, is_staff, is_active WHERE id=...`;
otherwise do nothing and return 0. -/
def ccnet_user_manager_update_emailuser (m : CcnetUserManager) (id : Nat)
    (passwd : String) (is_staff is_active : Bool) : CcnetUserManager × Int :=
  if !m.use_ldap || is_staff then
    let hashed := hash_password passwd
    ({ m with
        rows := m.rows.map (fun r =>
          if r.id == id then
            { r with passwd := hashed, is_staff := is_staff, is_active := is_active }
          else r) }, 0)
  else (m, 0)

/-! ### Concrete fixtures used by witnesses and counterexamples -/

/-- A directory whose service bind fails (directory unreachable). -/
def srvDown : LdapServer :=
  { serviceBindOk := false, searchOk := true,
    entries := fun _ => [], dnBindOk := fun _ _ => false }

/-- A reachable directory whose searches succeed but match no user. -/
def srvNoMatch : LdapServer :=
  { serviceBindOk := true, searchOk := true,
    entries := fun _ => [], dnBindOk := fun _ _ => false }

/-- A reachable directory holding one entry for "user@x". -/
def srvUser : LdapServer :=
  { serviceBindOk := true, searchOk := true,
    entries := fun u => if u == "user@x" then [{ dn := "cn=user", val := "user@x" }] else [],
    dnBindOk := fun dn pw => dn == "cn=user" && pw == "dirpw" }

/-- A reachable directory holding one entry for "admin@x" whose DN binds
with the directory password "dirpw". -/
def srvAdmin : LdapServer :=
  { serviceBindOk := true, searchOk := true,
    entries := fun u => if u == "admin@x" then [{ dn := "cn=admin", val := "admin@x" }] else [],
    dnBindOk := fun dn pw => dn == "cn=admin" && pw == "dirpw" }

/-- A local staff account whose stored digest is of "adminpw". -/
def adminRow : EmailUserRow :=
  { id := 1, email := "admin@x", passwd := hash_password "adminpw",
    is_staff := true, is_active := true, ctime := 100 }

/-- A local non-staff account. -/
def rowNonStaff : EmailUserRow :=
  { id := 1, email := "user@x", passwd := hash_password "pw",
    is_staff := false, is_active := true, ctime := 50 }

/-- LDAP-enabled manager with the local staff account and the admin directory. -/
def mAdmin : CcnetUserManager :=
  { use_ldap := true, rows := [adminRow], nextId := 2, srv := srvAdmin }

/-- LDAP-enabled manager with no local rows and the "user@x" directory. -/
def mUserOnly : CcnetUserManager :=
  { use_ldap := true, rows := [], nextId := 1, srv := srvUser }

/-- LDAP-enabled manager with one non-staff local row. -/
def mNonStaff : CcnetUserManager :=
  { use_ldap := true, rows := [rowNonStaff], nextId := 2, srv := srvNoMatch }

/-- Three plain local rows for the no-LDAP fixtures. -/
def rowL1 : EmailUserRow :=
  { id := 1, email := "a@x", passwd := "h1", is_staff := false, is_active := true, ctime := 10 }

/-- Second plain local row. -/
def rowL2 : EmailUserRow :=
  { id := 2, email := "b@x", passwd := "h2", is_staff := true, is_active := true, ctime := 20 }

/-- Third plain local row. -/
def rowL3 : EmailUserRow :=
  { id := 3, email := "c@x", passwd := "h3", is_staff := false, is_active := false, ctime := 30 }

/-- Manager without LDAP holding three rows. -/
def mLocal : CcnetUserManager :=
  { use_ldap := false, rows := [rowL1, rowL2, rowL3], nextId := 4, srv := srvNoMatch }

/-- Manager without LDAP holding no rows. -/
def mEmpty : CcnetUserManager :=
  { use_ldap := false, rows := [], nextId := 1, srv := srvNoMatch }

/-! ### Helper lemmas -/

theorem beBytes_length (n v : Nat) : (beBytes n v).length = n := by
  induction n generalizing v with
  | zero => rfl
  | succ k ih => simp [beBytes, ih]

theorem digestBytes_length (h : Nat × Nat × Nat × Nat × Nat) :
    (digestBytes h).length = 20 := by
  obtain ⟨a, b, c, d, e⟩ := h
  simp [digestBytes, beBytes_length]

theorem sha1_length (ms : List Nat) : (sha1 ms).length = 20 := by
  simp [sha1, digestBytes_length]

theorem string_mk_length (cs : List Char) : (String.mk cs).length = cs.length := rfl

theorem hexChars_length (bs : List Nat) :
    (bs.foldr (fun b acc => hexDigit (b / 16) :: hexDigit (b % 16) :: acc) []).length =
      2 * bs.length := by
  induction bs with
  | nil => rfl
  | cons b rest ih =>
    simp only [List.foldr_cons, List.length_cons, ih]
    omega

theorem hash_password_length (p : String) : (hash_password p).length = 40 := by
  unfold hash_password rawdata_to_hex
  rw [string_mk_length, hexChars_length, sha1_length]

theorem map_map_invariant {α β : Type} (g : α → β) (f : α → α)
    (hg : ∀ x, g (f x) = g x) (l : List α) :
    (l.map f).map g = l.map g := by
  induction l with
  | nil => rfl
  | cons x xs ih => simp only [List.map_cons, hg x, ih]

theorem filter_map_invariant {α : Type} (p : α → Bool) (f : α → α)
    (hp : ∀ x, p (f x) = p x) (hf : ∀ x, p x = true → f x = x) (l : List α) :
    (l.map f).filter p = l.filter p := by
  induction l with
  | nil => rfl
  | cons x xs ih =>
    simp only [List.map_cons, List.filter_cons, hp x]
    cases hx : p x with
    | false => simp only [hx, Bool.false_eq_true, if_false]; exact ih
    | true => rw [hf x hx]; simp [hx, ih]

/-! ### Claim theorems -/

/-- C1: with a directory configured, `validate` first queries the local
store for a row matching both email and password digest; a staff match
succeeds immediately with no directory dependence (the result is 0 for
every possible directory state), and in every other case (non-staff
match, or no match) the result is exactly `ldap_verify_user_password`'s. -/
theorem validate_delegates_unless_local_staff_match
    (m : CcnetUserManager) (email passwd : String) (hl : m.use_ldap = true) :
    (∀ r : EmailUserRow,
        find_emailuser_by_email_passwd m.rows email (hash_password passwd) = some r →
        r.is_staff = true →
        ∀ srv : LdapServer,
          ccnet_user_manager_validate_emailuser { m with srv := srv } email passwd = 0) ∧
    (∀ r : EmailUserRow,
        find_emailuser_by_email_passwd m.rows email (hash_password passwd) = some r →
        r.is_staff = false →
        ccnet_user_manager_validate_emailuser m email passwd =
          ldap_verify_user_password m.srv email passwd) ∧
    (find_emailuser_by_email_passwd m.rows email (hash_password passwd) = none →
      ccnet_user_manager_validate_emailuser m email passwd =
        ldap_verify_user_password m.srv email passwd) := by
  refine ⟨?_, ?_, ?_⟩
  · intro r hr hs srv
    simp [ccnet_user_manager_validate_emailuser, hl, hr, hs]
  · intro r hr hs
    simp [ccnet_user_manager_validate_emailuser, hl, hr, hs]
  · intro hn
    simp [ccnet_user_manager_validate_emailuser, hl, hn]

/-- C1 witness: the local staff account "admin@x" with its correct
password validates to 0 even against a directory whose bind fails, so no
directory call decides the outcome. -/
theorem validate_delegates_unless_local_staff_match_witness :
    ccnet_user_manager_validate_emailuser { mAdmin with srv := srvDown } "admin@x" "adminpw" = 0 :=
  (validate_delegates_unless_local_staff_match mAdmin "admin@x" "adminpw" rfl).1
    adminRow (by decide) rfl srvDown

/-- C2: with a directory configured, `get(email)` returns a local staff
row as-is; otherwise its result is the head of `ldap_list_users email`
(none when that list is empty), and every account built by
`ldap_list_users` carries id 0, is_staff false, is_active true, ctime 0
and an email taken from a matched directory entry. -/
theorem get_emailuser_delegation (m : CcnetUserManager) (email : String)
    (hl : m.use_ldap = true) :
    (∀ r : EmailUserRow,
        find_emailuser_by_email m.rows email = some r → r.is_staff = true →
        ccnet_user_manager_get_emailuser m email = some (row_to_emailuser r)) ∧
    (∀ r : EmailUserRow,
        find_emailuser_by_email m.rows email = some r → r.is_staff = false →
        ccnet_user_manager_get_emailuser m email = (ldap_list_users m.srv email).head?) ∧
    (find_emailuser_by_email m.rows email = none →
      ccnet_user_manager_get_emailuser m email = (ldap_list_users m.srv email).head?) ∧
    (∀ u ∈ ldap_list_users m.srv email,
      u.id = 0 ∧ u.is_staff = false ∧ u.is_active = true ∧ u.ctime = 0 ∧
        ∃ e ∈ m.srv.entries email, u.email = e.val) := by
  refine ⟨?_, ?_, ?_, ?_⟩
  · intro r hr hs
    simp [ccnet_user_manager_get_emailuser, hl, hr, hs]
  · intro r hr hs
    simp [ccnet_user_manager_get_emailuser, hl, hr, hs]
  · intro hn
    simp [ccnet_user_manager_get_emailuser, hl, hn]
  · intro u hu
    simp only [ldap_list_users] at hu
    split at hu
    · simp at hu
    · split at hu
      · simp at hu
      · rw [List.mem_reverse, List.mem_map] at hu
        obtain ⟨e, he, rfl⟩ := hu
        exact ⟨rfl, rfl, rfl, rfl, e, he, rfl⟩

/-- C2 witness: "user@x" absent locally and present in the directory is
served from the directory list head. -/
theorem get_emailuser_delegation_witness :
    ccnet_user_manager_get_emailuser mUserOnly "user@x" =
      (ldap_list_users mUserOnly.srv "user@x").head? :=
  (get_emailuser_delegation mUserOnly "user@x" rfl).2.2.1 rfl

/-- C3 counterexample: an unreachable directory (service bind fails) and
a reachable one whose search matches no user are indistinguishable
through `ldap_list_users` (both return the empty list, i.e. NULL) and
through `ldap_verify_user_password` (both return -1), so a bind failure
is reported exactly as an empty success for those operations. -/
theorem ldap_unavailable_indistinguishable :
    srvDown.serviceBindOk = false ∧
    srvNoMatch.serviceBindOk = true ∧ srvNoMatch.searchOk = true ∧
    srvNoMatch.entries "user@x" = [] ∧
    ldap_list_users srvDown "user@x" = ldap_list_users srvNoMatch "user@x" ∧
    ldap_list_users srvNoMatch "user@x" = [] ∧
    ldap_verify_user_password srvDown "user@x" "pw" =
      ldap_verify_user_password srvNoMatch "user@x" "pw" :=
  ⟨rfl, rfl, rfl, rfl, rfl, rfl, rfl⟩

/-- C3 amended: only `ldap_count_users` yields an unavailability value
(-1) distinguishable from any successful count (≥ 0); `ldap_list_users`
and `ldap_verify_user_password` return for a bind/search failure the
very same values (empty list, -1) as for a successful search matching
no user. -/
theorem ldap_failure_reporting (srv srv2 : LdapServer) (uid pw : String)
    (hfail : srv.serviceBindOk = false ∨ srv.searchOk = false)
    (hok : srv2.serviceBindOk = true) (hok2 : srv2.searchOk = true) :
    ldap_count_users srv uid = -1 ∧
    ldap_count_users srv2 uid = ((srv2.entries uid).length : Int) ∧
    ldap_count_users srv uid ≠ ldap_count_users srv2 uid ∧
    ldap_list_users srv uid = [] ∧
    ldap_verify_user_password srv uid pw = -1 ∧
    (srv2.entries uid = [] →
      ldap_list_users srv2 uid = [] ∧
        ldap_verify_user_password srv2 uid pw = -1) := by
  have hc : ldap_count_users srv uid = -1 := by
    rcases hfail with h | h <;> simp [ldap_count_users, h]
  have hc2 : ldap_count_users srv2 uid = ((srv2.entries uid).length : Int) := by
    simp [ldap_count_users, hok, hok2]
  refine ⟨hc, hc2, ?_, ?_, ?_, ?_⟩
  · rw [hc, hc2]
    omega
  · rcases hfail with h | h <;> simp [ldap_list_users, h]
  · rcases hfail with h | h <;> simp [ldap_verify_user_password, h]
  · intro hempty
    constructor
    · simp [ldap_list_users, hok, hok2, hempty]
    · simp [ldap_verify_user_password, hok, hok2, hempty]

/-- C3 amended witness: concrete unreachable vs reachable-but-empty
directories, instantiated through the amended theorem. -/
theorem ldap_failure_reporting_witness :
    ldap_count_users srvDown "user@x" = -1 ∧
    ldap_count_users srvNoMatch "user@x" = 0 ∧
    ldap_count_users srvDown "user@x" ≠ ldap_count_users srvNoMatch "user@x" ∧
    ldap_list_users srvDown "user@x" = [] ∧
    ldap_verify_user_password srvDown "user@x" "pw" = -1 ∧
    ldap_list_users srvNoMatch "user@x" = [] ∧
    ldap_verify_user_password srvNoMatch "user@x" "pw" = -1 := by
  have h := ldap_failure_reporting srvDown srvNoMatch "user@x" "pw" (Or.inl rfl) rfl rfl
  have h6 := h.2.2.2.2.2 rfl
  exact ⟨h.1, h.2.1.trans rfl, h.2.2.1, h.2.2.2.1, h.2.2.2.2.1, h6.1, h6.2⟩

/-- C10: with a directory configured and a locally stored staff account
being the only row for its email, `validate` called with a password
whose digest differs from the stored digest does not fail locally: the
result is exactly the directory's `ldap_verify_user_password` verdict. -/
theorem validate_staff_wrong_digest_delegates
    (m : CcnetUserManager) (email passwd : String) (r : EmailUserRow)
    (hl : m.use_ldap = true)
    (hr : find_emailuser_by_email m.rows email = some r)
    (hstaff : r.is_staff = true)
    (huniq : ∀ r' ∈ m.rows, r'.email = email → r' = r)
    (hdig : r.passwd ≠ hash_password passwd) :
    ccnet_user_manager_validate_emailuser m email passwd =
      ldap_verify_user_password m.srv email passwd := by
  have hnone : find_emailuser_by_email_passwd m.rows email (hash_password passwd) = none := by
    unfold find_emailuser_by_email_passwd
    rw [List.find?_eq_none]
    intro r' hmem hcontra
    rw [Bool.and_eq_true, beq_iff_eq, beq_iff_eq] at hcontra
    obtain ⟨he, hp⟩ := hcontra
    rw [huniq r' hmem he] at hp
    exact hdig hp
  simp [ccnet_user_manager_validate_emailuser, hl, hnone]

/-- C10 witness: the staff account "admin@x" (stored digest of
"adminpw") validated with the directory password "dirpw" is decided by
the directory bind. -/
theorem validate_staff_wrong_digest_delegates_witness :
    ccnet_user_manager_validate_emailuser mAdmin "admin@x" "dirpw" =
      ldap_verify_user_password mAdmin.srv "admin@x" "dirpw" :=
  validate_staff_wrong_digest_delegates mAdmin "admin@x" "dirpw" adminRow rfl
    (by decide) rfl (by decide) (by decide)

/-- C4 counterexample: with a directory configured and the stored row of
id 1 not staff, `update` called with the is_staff argument set mutates
the row anyway — the gate is the call's is_staff argument, not the
stored row's staff flag, so the claim's "applied only when the stored
row is staff" is false. -/
theorem update_gate_counterexample :
    mNonStaff.use_ldap = true ∧
    (∀ r ∈ mNonStaff.rows, r.id = 1 ∧ r.is_staff = false) ∧
    (ccnet_user_manager_update_emailuser mNonStaff 1 "npw" true true).1.rows ≠
      mNonStaff.rows := by
  refine ⟨rfl, by decide, by decide⟩

/-- C4 amended: with a directory configured, `update` is applied to the
local row exactly when the is_staff argument of the call is true; when
that argument is false the call is a no-op returning success. With no
directory configured it is always applied. -/
theorem update_applied_iff_staff_arg (m : CcnetUserManager) (id : Nat)
    (passwd : String) (is_staff is_active : Bool) :
    (m.use_ldap = true → is_staff = false →
      ccnet_user_manager_update_emailuser m id passwd is_staff is_active = (m, 0)) ∧
    (m.use_ldap = false ∨ is_staff = true →
      (ccnet_user_manager_update_emailuser m id passwd is_staff is_active).2 = 0 ∧
      ∀ r ∈ (ccnet_user_manager_update_emailuser m id passwd is_staff is_active).1.rows,
        r.id = id →
          r.passwd = hash_password passwd ∧ r.is_staff = is_staff ∧
            r.is_active = is_active) := by
  constructor
  · intro hl hs
    simp [ccnet_user_manager_update_emailuser, hl, hs]
  · intro hcond
    have hb : (!m.use_ldap || is_staff) = true := by
      rcases hcond with h | h <;> simp [h]
    refine ⟨by simp [ccnet_user_manager_update_emailuser, hb], ?_⟩
    intro r hr hid
    simp only [ccnet_user_manager_update_emailuser, hb, if_true] at hr
    rw [List.mem_map] at hr
    obtain ⟨r0, hr0, rfl⟩ := hr
    by_cases h0 : r0.id = id
    · simp [h0]
    · simp only [h0, beq_iff_eq, if_false] at hid ⊢

/-- C4 amended witness: with the is_staff argument false under a
directory, the update is the identity no-op with return code 0. -/
theorem update_applied_iff_staff_arg_witness :
    ccnet_user_manager_update_emailuser mNonStaff 1 "npw" false true = (mNonStaff, 0) :=
  (update_applied_iff_staff_arg mNonStaff 1 "npw" false true).1 rfl rfl

/-- C5: with a directory configured, `add` and `remove` both return 0
and leave the manager state — in particular the local Account table —
unchanged. -/
theorem add_remove_noop_under_ldap (m : CcnetUserManager) (now : Int)
    (email passwd : String) (is_staff is_active : Bool) (hl : m.use_ldap = true) :
    ccnet_user_manager_add_emailuser m now email passwd is_staff is_active = (m, 0) ∧
    ccnet_user_manager_remove_emailuser m email = (m, 0) := by
  constructor
  · simp [ccnet_user_manager_add_emailuser, hl]
  · simp [ccnet_user_manager_remove_emailuser, hl]

/-- C5 witness: adding and removing "new@x" on the LDAP-enabled manager
changes nothing and reports success. -/
theorem add_remove_noop_under_ldap_witness :
    ccnet_user_manager_add_emailuser mNonStaff 7 "new@x" "p" false true = (mNonStaff, 0) ∧
    ccnet_user_manager_remove_emailuser mNonStaff "new@x" = (mNonStaff, 0) :=
  add_remove_noop_under_ldap mNonStaff 7 "new@x" "p" false true rfl

/-- C6: with no directory configured and a fresh email, `add` followed by
`validate` with the same password succeeds; `validate` with any password
of a different digest fails; any password of the same digest succeeds
(verification is digest equality, not plaintext comparison); and the
stored digest has fixed width 40. -/
theorem add_validate_roundtrip (m : CcnetUserManager) (now : Int)
    (email passwd other : String) (is_staff is_active : Bool)
    (hl : m.use_ldap = false)
    (hnew : ∀ r ∈ m.rows, r.email ≠ email) :
    ccnet_user_manager_validate_emailuser
      (ccnet_user_manager_add_emailuser m now email passwd is_staff is_active).1
      email passwd = 0 ∧
    (hash_password other ≠ hash_password passwd →
      ccnet_user_manager_validate_emailuser
        (ccnet_user_manager_add_emailuser m now email passwd is_staff is_active).1
        email other = -1) ∧
    (∀ p' : String, hash_password p' = hash_password passwd →
      ccnet_user_manager_validate_emailuser
        (ccnet_user_manager_add_emailuser m now email passwd is_staff is_active).1
        email p' = 0) ∧
    (hash_password passwd).length = 40 := by
  have hnoexist : m.rows.any (fun r => r.email == email) = false := by
    rw [List.any_eq_false]
    intro r hmem
    simp [hnew r hmem]
  have hadd : (ccnet_user_manager_add_emailuser m now email passwd is_staff is_active).1 =
      { m with
        rows := m.rows ++
          [{ id := m.nextId, email := email, passwd := hash_password passwd,
             is_staff := is_staff, is_active := is_active, ctime := now }],
        nextId := m.nextId + 1 } := by
    simp [ccnet_user_manager_add_emailuser, hl, hnoexist]
  have hold : ∀ h' : String,
      m.rows.any (fun r => r.email == email && r.passwd == h') = false := by
    intro h'
    rw [List.any_eq_false]
    intro r hmem
    simp [hnew r hmem]
  refine ⟨?_, ?_, ?_, hash_password_length passwd⟩
  · simp [ccnet_user_manager_validate_emailuser, hadd, hl, List.any_append, hold]
  · intro hdig
    have hd' : hash_password passwd ≠ hash_password other := Ne.symm hdig
    simp [ccnet_user_manager_validate_emailuser, hadd, hl, List.any_append, hold, hd']
  · intro p' hp'
    simp [ccnet_user_manager_validate_emailuser, hadd, hl, List.any_append, hold, hp']

/-- C6 witness: on the empty store, add "u@x"/"pw" then validate "pw"
succeeds and validate "wrong" (different digest) fails. -/
theorem add_validate_roundtrip_witness :
    ccnet_user_manager_validate_emailuser
      (ccnet_user_manager_add_emailuser mEmpty 5 "u@x" "pw" false true).1 "u@x" "pw" = 0 ∧
    ccnet_user_manager_validate_emailuser
      (ccnet_user_manager_add_emailuser mEmpty 5 "u@x" "pw" false true).1 "u@x" "wrong" = -1 := by
  have h := add_validate_roundtrip mEmpty 5 "u@x" "pw" "wrong" false true rfl
    (by intro r hr; simp [mEmpty] at hr)
  exact ⟨h.1, h.2.1 (by decide)⟩

/-- C7: `update` changes neither the email, the ctime, nor the id of any
row (in particular of the row with the given id), leaves every row with
a different id entirely unchanged, and — when no directory is
configured — overwrites passwd, is_staff and is_active of the rows with
the given id. -/
theorem update_frame_effect (m : CcnetUserManager) (id : Nat) (passwd : String)
    (is_staff is_active : Bool) :
    (ccnet_user_manager_update_emailuser m id passwd is_staff is_active).1.rows.map
        (fun r => (r.id, r.email, r.ctime)) =
      m.rows.map (fun r => (r.id, r.email, r.ctime)) ∧
    (ccnet_user_manager_update_emailuser m id passwd is_staff is_active).1.rows.filter
        (fun r => !(r.id == id)) =
      m.rows.filter (fun r => !(r.id == id)) ∧
    (m.use_ldap = false →
      ∀ r ∈ (ccnet_user_manager_update_emailuser m id passwd is_staff is_active).1.rows,
        r.id = id →
          r.passwd = hash_password passwd ∧ r.is_staff = is_staff ∧
            r.is_active = is_active) := by
  unfold ccnet_user_manager_update_emailuser
  split
  · refine ⟨?_, ?_, ?_⟩
    · exact map_map_invariant _ _ (fun x => by by_cases hx : x.id = id <;> simp [hx]) m.rows
    · refine filter_map_invariant _ _ (fun x => ?_) (fun x hx => ?_) m.rows
      · by_cases hx : x.id = id <;> simp [hx]
      · simp only [Bool.not_eq_true'] at hx
        simp [hx]
    · intro hl r hr hid
      simp only at hr
      rw [List.mem_map] at hr
      obtain ⟨r0, hr0, rfl⟩ := hr
      by_cases h0 : r0.id = id
      · simp [h0]
      · simp only [h0, beq_iff_eq, if_false] at hid ⊢
  · rename_i hcond
    refine ⟨rfl, rfl, ?_⟩
    intro hl
    rw [hl] at hcond
    simp at hcond

/-- C7 witness: updating row 1 of the three-row local store keeps every
id/email/ctime and leaves rows 2 and 3 untouched. -/
theorem update_frame_effect_witness :
    (ccnet_user_manager_update_emailuser mLocal 1 "npw" true false).1.rows.map
        (fun r => (r.id, r.email, r.ctime)) =
      mLocal.rows.map (fun r => (r.id, r.email, r.ctime)) ∧
    (ccnet_user_manager_update_emailuser mLocal 1 "npw" true false).1.rows.filter
        (fun r => !(r.id == 1)) =
      mLocal.rows.filter (fun r => !(r.id == 1)) := by
  have h := update_frame_effect mLocal 1 "npw" true false
  exact ⟨h.1, h.2.1⟩

/-- C8: with no directory configured, `list(-1, -1)` returns one account
per stored row (its length equals `count()`) in storage order;
`list(0, 2)` returns at most 2 accounts; and every page is a sublist of
the full storage-ordered listing. -/
theorem list_pagination (m : CcnetUserManager) (hl : m.use_ldap = false) :
    ((ccnet_user_manager_get_emailusers m (-1) (-1)).length : Int) =
      ccnet_user_manager_count_emailusers m ∧
    ccnet_user_manager_get_emailusers m (-1) (-1) = m.rows.map row_to_emailuser ∧
    (ccnet_user_manager_get_emailusers m 0 2).length ≤ 2 ∧
    ∀ start limit : Int,
      List.Sublist (ccnet_user_manager_get_emailusers m start limit)
        (m.rows.map row_to_emailuser) := by
  refine ⟨?_, ?_, ?_, ?_⟩
  · simp [ccnet_user_manager_get_emailusers, ccnet_user_manager_count_emailusers, hl]
  · simp [ccnet_user_manager_get_emailusers, hl]
  · simp only [ccnet_user_manager_get_emailusers, hl, Bool.false_eq_true, if_false]
    norm_num [List.length_take]
  · intro start limit
    simp only [ccnet_user_manager_get_emailusers, hl, Bool.false_eq_true, if_false]
    split
    · exact List.Sublist.refl _
    · exact List.Sublist.map _ ((List.take_sublist _ _).trans (List.drop_sublist _ _))

/-- C8 witness: on the three-row local store, the full listing has the
cardinality of count() and list(0, 2) has at most two elements. -/
theorem list_pagination_witness :
    ((ccnet_user_manager_get_emailusers mLocal (-1) (-1)).length : Int) =
      ccnet_user_manager_count_emailusers mLocal ∧
    (ccnet_user_manager_get_emailusers mLocal 0 2).length ≤ 2 := by
  have h := list_pagination mLocal rfl
  exact ⟨h.1, h.2.2.1⟩

/-- C9: with a directory configured, `getById` returns none for every id
and every manager state (any local rows, any directory). -/
theorem get_by_id_none_under_ldap (m : CcnetUserManager) (id : Nat)
    (hl : m.use_ldap = true) :
    ccnet_user_manager_get_emailuser_by_id m id = none := by
  simp [ccnet_user_manager_get_emailuser_by_id, hl]

/-- C9 witness: even though a local row with id 1 exists, getById 1 is
none under LDAP. -/
theorem get_by_id_none_under_ldap_witness :
    ccnet_user_manager_get_emailuser_by_id mNonStaff 1 = none :=
  get_by_id_none_under_ldap mNonStaff 1 rfl
